import Mathlib

/-
Verification of the chain-selection and fork-compatibility core
(fork choice, common-ancestor finder, genesis initializer, fork-identifier
wire codec) of the yuriy0803/core-geth1 repository, by shallow embedding
of the Go sources into Lean.
-/

namespace CoreGeth

/-! ### Data model: headers and the chain reader (core/forkchoice.go) -/

/-- A block header as used by the fork-choice engine: identified by an
opaque content hash, carrying a parent hash, a height (`Number.Uint64()`)
and a timestamp. -/
structure Header where
  hash : Nat
  parentHash : Nat
  number : Nat
  time : Nat
deriving DecidableEq, Repr

/-- The `consensus.ChainHeaderReader` surface consumed by `ForkChoice`,
together with the configuration bits `ReorgNeeded` reads from it
(`GetEthashTerminalTotalDifficulty`, `GetECBP1100Transition`) and the
dynamic facts of the concrete chain value (`*BlockChain` type assertion,
`IsArtificialFinalityEnabled`). -/
structure ChainView where
  getHeader : Nat → Nat → Option Header
  getTd : Nat → Nat → Option Int
  ttd : Option Int
  ecbp1100Transition : Option Nat
  isBlockChain : Bool
  afEnabled : Bool

/-- `ForkChoice`: the chain reader plus the optional tie-break preference
predicate (`preserve`); the pseudo-random source is passed to `reorgNeeded`
explicitly as the boolean outcome of `f.rand.Float64() < 0.5`. -/
structure ForkChoice where
  chain : ChainView
  preserve : Option (Header → Bool)

/-- Go `uint64` decrement as used in `oldH.Number.Uint64()-1`: wraps at zero. -/
def goPred (n : Nat) : Nat := if n = 0 then 2 ^ 64 - 1 else n - 1

/-- The hash that `(*types.Header)(nil).Hash()` evaluates to in Go
(`rlpHash` of a nil pointer, i.e. keccak of the RLP empty list): an opaque
constant distinct from any real header hash in our scenarios. -/
def nilHeaderHash : Nat := 0

/-- `h.Hash()` on a possibly-nil header pointer. -/
def goHash : Option Header → Nat
  | none => nilHeaderHash
  | some h => h.hash

/-- `ChainConfig.IsEnabled(getter, n)`: true iff the transition value is
set and is at or below `n`. -/
def isForkEnabled : Option Nat → Nat → Bool
  | none, _ => false
  | some v, n => decide (v ≤ n)

/-- The terminal-total-difficulty trigger
`ttd != nil && ttd.Cmp(externTd) <= 0`. -/
def ttdReached : Option Int → Int → Bool
  | none, _ => false
  | some t, e => decide (t ≤ e)

/-! ### CommonAncestor (core/forkchoice.go lines 63-96) -/

/-- Errors returned by `ForkChoice.CommonAncestor`
(`"invalid oldH chain"` / `"invalid newH chain"`). -/
inductive CAErr where
  | invalidOldChain
  | invalidNewChain
deriving DecidableEq, Repr

/-- Outcome of `ForkChoice.CommonAncestor`. `crash` models a Go nil-pointer
dereference (runtime panic); `timeout` models running out of fuel, i.e. a
walk longer than the fuel bound; `nilResult` models `return nil, nil`
(both cursors nil with equal nil-hashes). -/
inductive CAOut where
  | ok (h : Header)
  | nilResult
  | err (e : CAErr)
  | crash
  | timeout
deriving DecidableEq, Repr

/-- The height-equalization loop
`for ; oldH != nil && oldH.Number.Uint64() != newH.Number.Uint64(); oldH = f.chain.GetHeader(oldH.ParentHash, oldH.Number.Uint64()-1)`.
Returns `none` when fuel runs out, otherwise `some c` where `c` is the final
cursor (`none` = the Go loop exited with a nil header). -/
def walkTo (chain : ChainView) : Nat → Header → Nat → Option (Option Header)
  | 0, _, _ => none
  | fuel + 1, h, tgt =>
    if h.number = tgt then some (some h)
    else
      match chain.getHeader h.parentHash (goPred h.number) with
      | none => some none
      | some h' => walkTo chain fuel h' tgt

/-- The lockstep reduction loop of `CommonAncestor`: compare hashes, then
step both cursors to their parents, failing with the corresponding error
when a lookup returns nil. Entering with a nil cursor reproduces the Go
behaviour: its `Hash()` is the nil-header hash, and the subsequent
`.ParentHash` field access on nil is a crash. -/
def lockstep (chain : ChainView) : Nat → Option Header → Option Header → CAOut
  | 0, _, _ => .timeout
  | fuel + 1, oldO, newO =>
    if goHash oldO = goHash newO then
      match oldO with
      | some h => .ok h
      | none => .nilResult
    else
      match oldO with
      | none => .crash
      | some oh =>
        match chain.getHeader oh.parentHash (goPred oh.number) with
        | none => .err .invalidOldChain
        | some oh' =>
          match newO with
          | none => .crash
          | some nh =>
            match chain.getHeader nh.parentHash (goPred nh.number) with
            | none => .err .invalidNewChain
            | some nh' => lockstep chain fuel (some oh') (some nh')

/-- `ForkChoice.CommonAncestor(current, header)`: equalize heights by
walking the taller chain, then reduce both in lockstep until the hashes
agree. -/
def commonAncestor (chain : ChainView) (fuel : Nat) (current headerH : Header) : CAOut :=
  if current.number > headerH.number then
    match walkTo chain fuel current headerH.number with
    | none => .timeout
    | some oldO => lockstep chain fuel oldO (some headerH)
  else
    match walkTo chain fuel headerH current.number with
    | none => .timeout
    | some newO => lockstep chain fuel (some current) newO

/-! ### ReorgNeeded (core/forkchoice.go lines 98-191) -/

/-- Errors surfaced by `ReorgNeeded`: the `"missing td"` error, or an error
propagated from `CommonAncestor`. -/
inductive RNErr where
  | missingTd
  | ca (e : CAErr)
deriving DecidableEq, Repr

/-- Outcome of `ReorgNeeded`: the Go `(bool, error)` pair, or a crash /
fuel exhaustion propagated from `CommonAncestor`. -/
inductive RNOut where
  | ret (reorg : Bool) (e : Option RNErr)
  | crash
  | timeout
deriving DecidableEq, Repr

/-- The ECBP1100 (MESS) gate `ecbp1100(commonAncestor, current, extern, getTd)`:
an external collaborator consumed by the engine; any returned error
suppresses the reorg. The first argument is the common-ancestor header
(possibly nil). -/
def Gate : Type :=
  Option Header → Header → Header → (Nat → Nat → Option Int) → Option String

/-- `currentPreserve, externPreserve = f.preserve(current), f.preserve(extern)`
(both false when `f.preserve` is nil). -/
def preservedPair (f : ForkChoice) (cur xh : Header) : Bool × Bool :=
  match f.preserve with
  | none => (false, false)
  | some p => (p cur, p xh)

/-- The body of `ReorgNeeded` after both total difficulties resolved. -/
def reorgCore (f : ForkChoice) (gate : Gate) (coin : Bool) (fuel : Nat)
    (cur xh : Header) (localTD externTd : Int) : RNOut :=
  if ttdReached f.chain.ttd externTd then .ret true none
  else
    let pp := preservedPair f cur xh
    let reorg : Bool :=
      if externTd = localTD then
        if xh.number < cur.number then true
        else if xh.number = cur.number then !pp.1 && (pp.2 || coin)
        else decide (localTD < externTd)
      else decide (localTD < externTd)
    if reorg then
      if f.chain.isBlockChain && !f.chain.afEnabled then .ret reorg none
      else if !(isForkEnabled f.chain.ecbp1100Transition cur.number) then .ret reorg none
      else
        match commonAncestor f.chain fuel cur xh with
        | .timeout => .timeout
        | .crash => .crash
        | .err e => .ret reorg (some (.ca e))
        | .ok ch =>
          match gate (some ch) cur xh f.chain.getTd with
          | some _ => .ret false none
          | none => .ret reorg none
        | .nilResult =>
          match gate none cur xh f.chain.getTd with
          | some _ => .ret false none
          | none => .crash
    else .ret reorg none

/-- `ForkChoice.ReorgNeeded(current, extern)`. `coin` is the value of the
tie-break draw `f.rand.Float64() < 0.5`; `fuel` bounds the common-ancestor
walk. -/
def reorgNeeded (f : ForkChoice) (gate : Gate) (coin : Bool) (fuel : Nat)
    (cur xh : Header) : RNOut :=
  match f.chain.getTd cur.hash cur.number, f.chain.getTd xh.hash xh.number with
  | some localTD, some externTd => reorgCore f gate coin fuel cur xh localTD externTd
  | none, _ => .ret false (some .missingTd)
  | some _, none => .ret false (some .missingTd)

/-- The condition under which the artificial-finality (deep-reorg) gate is
not consulted by `ReorgNeeded`: either the chain value is a `*BlockChain`
with artificial finality disabled, or ECBP1100 is not activated at the
current header's height. -/
def afSkipped (f : ForkChoice) (cur : Header) : Prop :=
  (f.chain.isBlockChain = true ∧ f.chain.afEnabled = false) ∨
    isForkEnabled f.chain.ecbp1100Transition cur.number = false

/-! ### Genesis initializer (core/genesis.go) -/

/-- A genesis account allocation (address, balance view); its contents are
opaque to the control flow verified here. -/
def Alloc : Type := List (Nat × Int)

instance : DecidableEq Alloc := by unfold Alloc; infer_instance

instance : Repr Alloc := by unfold Alloc; infer_instance

/-- The slice of a chain configuration read or written by the genesis code
paths under verification: the consensus-engine tag and the transition
values consulted by `GenesisToBlock` and by `applyOverrides`. -/
structure Config where
  isClique : Bool
  eip1559Block : Option Nat
  eip3651Time : Option Nat
  eip3855Time : Option Nat
  eip3860Time : Option Nat
  eip4895Time : Option Nat
  eip4895Block : Option Nat
  eip6049Time : Option Nat
  eip4844Time : Option Nat
deriving DecidableEq, Repr

/-- `ChainOverrides`: optional time-based override values. -/
structure Overrides where
  shanghai : Option Nat
  cancun : Option Nat
  verkle : Option Nat
deriving DecidableEq, Repr

/-- `applyOverrides` from `SetupGenesisBlockWithOverride`: Shanghai
overrides set the five time-based transitions, the Cancun override sets
EIP-4844; the Verkle override only logs a warning. -/
def applyOv (ov : Overrides) (c : Config) : Config :=
  let c1 :=
    match ov.shanghai with
    | some t =>
      { c with eip3651Time := some t, eip3855Time := some t, eip3860Time := some t,
               eip4895Time := some t, eip6049Time := some t }
    | none => c
  match ov.cancun with
  | some t => { c1 with eip4844Time := some t }
  | none => c1

/-- The `genesisT.Genesis` specification fields consumed by
`GenesisToBlock` and `CommitGenesis`. -/
structure Genesis where
  config : Option Config
  alloc : Alloc
  nonce : Nat
  timestamp : Nat
  extraData : List Nat
  gasLimit : Nat
  gasUsed : Nat
  difficulty : Option Int
  mixhash : Nat
  coinbase : Nat
  baseFee : Option Int
  number : Nat
  parentHash : Nat
  excessBlobGas : Option Nat
  blobGasUsed : Option Nat
deriving DecidableEq, Repr

/-- The genesis block header built by `GenesisToBlock`. -/
structure GenHeader where
  number : Nat
  nonce : Nat
  time : Nat
  parentHash : Nat
  extra : List Nat
  gasLimit : Nat
  gasUsed : Nat
  baseFee : Option Int
  difficulty : Int
  mixDigest : Nat
  coinbase : Nat
  root : Nat
  withdrawalsHash : Option Nat
  excessBlobGas : Option Nat
  blobGasUsed : Option Nat
deriving DecidableEq, Repr

/-- `vars.GenesisGasLimit`. -/
def genesisGasLimit : Nat := 4712388

/-- `vars.GenesisDifficulty`. -/
def genesisDifficulty : Int := 131072

/-- `vars.InitialBaseFee`. -/
def initialBaseFee : Int := 1000000000

/-- `types.EmptyWithdrawalsHash`: an opaque hash constant. -/
def emptyWithdrawalsHash : Nat := 101

/-- `types.EmptyRootHash`: an opaque hash constant. -/
def emptyRootHash : Nat := 102

/-- `ChainConfig.IsEnabledByTime(getter, t)`: true iff the transition time
is set and is at or below `t`. -/
def isForkEnabledByTime : Option Nat → Nat → Bool
  | none, _ => false
  | some v, t => decide (v ≤ t)

/-- A typed write to the key/value store, in the order `CommitGenesis` and
`SetupGenesisBlockWithOverride` perform them. -/
inductive WriteOp where
  | stateSpec (key : Nat) (alloc : Alloc)
  | td (hash number : Nat) (d : Int)
  | blockW (hash : Nat) (hdr : GenHeader)
  | receipts (hash number : Nat)
  | canonicalHash (hash number : Nat)
  | headBlockHash (hash : Nat)
  | headFastBlockHash (hash : Nat)
  | headHeaderHash (hash : Nat)
  | chainConfigW (hash : Nat) (cfg : Option Config)
deriving DecidableEq, Repr

/-- The database view read by the genesis paths, plus the ordered log of
writes performed so far. Reads and writes do not interleave inside a single
setup call, so the read surface is kept immutable. -/
structure DB where
  canonicalHash0 : Nat
  readHeader0 : Nat → Option GenHeader
  hasLegacyTrieNode : Nat → Bool
  chainConfigOf : Nat → Option Config
  headHeader : Option GenHeader
  writes : List WriteOp

/-- Append writes to the database log. -/
def dbAppend (db : DB) (ws : List WriteOp) : DB :=
  { db with writes := db.writes ++ ws }

/-- A config-compatibility error (`confp.Compatible` result), carrying the
rewind targets inspected by `SetupGenesisBlockWithOverride`. -/
structure CompatErr where
  rewindBlock : Nat
  rewindTime : Nat
deriving DecidableEq, Repr

/-- Collaborators of the genesis initializer that live outside the source
files under verification. Modelled from the spec: `deriveRoot` is the state
root derived from the allocation (`gaDeriveHash`), `hashHeader` the header
content hash (`types.Header.Hash`), `allEthash`
`params.AllEthashProtocolChanges`, `defaultGenesis`
`params.DefaultGenesisBlock()`, `presets` the fixed genesis-hash →
built-in-configuration table of `configOrDefault`, `isEmptyCfg`
`confp.IsEmpty`, `identical` `confp.Identical(·, ·, [NetworkID, ChainID])`,
`compatible` `confp.Compatible(head.Number, &head.Time, stored, new)`, and
`jsonEq` equality of the JSON-marshalled configurations. All are opaque:
every theorem below holds for an arbitrary instantiation. -/
structure GenesisEnv where
  deriveRoot : Alloc → Nat
  hashHeader : GenHeader → Nat
  allEthash : Config
  defaultGenesis : Genesis
  presets : Nat → Option Config
  isEmptyCfg : Option Config → Bool
  identical : Config → Option Config → Bool
  compatible : Nat → Nat → Config → Option Config → Option CompatErr
  jsonEq : Config → Option Config → Bool

/-- `GenesisToBlock` (core/genesis.go lines 395-460), restricted to the
header it derives: defaults for gas limit and difficulty, base fee only if
EIP-1559 is active at block zero, withdrawals hash only if EIP-4895 is
active at the spec's own time or number, blob-gas fields (defaulting to
zero) only if EIP-4844 is active at the spec's own time. -/
def genesisToHeader (env : GenesisEnv) (g : Genesis) : GenHeader :=
  let base : GenHeader :=
    { number := g.number
      nonce := g.nonce
      time := g.timestamp
      parentHash := g.parentHash
      extra := g.extraData
      gasLimit := if g.gasLimit = 0 then genesisGasLimit else g.gasLimit
      gasUsed := g.gasUsed
      baseFee := g.baseFee
      difficulty :=
        match g.difficulty with
        | none => genesisDifficulty
        | some d => d
      mixDigest := g.mixhash
      coinbase := g.coinbase
      root := env.deriveRoot g.alloc
      withdrawalsHash := none
      excessBlobGas := none
      blobGasUsed := none }
  match g.config with
  | none => base
  | some conf =>
    let b1 :=
      if isForkEnabled conf.eip1559Block 0 then
        { base with baseFee := some (g.baseFee.getD initialBaseFee) }
      else base
    let b2 :=
      if isForkEnabledByTime conf.eip4895Time g.timestamp
          || isForkEnabled conf.eip4895Block g.number then
        { b1 with withdrawalsHash := some emptyWithdrawalsHash }
      else b1
    if isForkEnabledByTime conf.eip4844Time g.timestamp then
      { b2 with excessBlobGas := some (g.excessBlobGas.getD 0),
                blobGasUsed := some (g.blobGasUsed.getD 0) }
    else b2

/-- Errors of `CommitGenesis`: `"can't commit genesis block with number > 0"`
and `"can't start clique chain without signers"`. -/
inductive CommitErr where
  | nonZeroNumber
  | cliqueNoSigners
deriving DecidableEq, Repr

/-- The writes `CommitGenesis` performs on success, in order (lines
484-494): allocation blob keyed by block hash, total difficulty, block,
empty receipts, canonical-hash-by-number, head-block, head-fast-block,
head-header, and chain configuration keyed by the genesis hash. -/
def commitWrites (hash : Nat) (g : Genesis) (hdr : GenHeader) (config : Config) :
    List WriteOp :=
  [ .stateSpec hash g.alloc,
    .td hash hdr.number hdr.difficulty,
    .blockW hash hdr,
    .receipts hash hdr.number,
    .canonicalHash hash hdr.number,
    .headBlockHash hash,
    .headFastBlockHash hash,
    .headHeaderHash hash,
    .chainConfigW hash (some config) ]

/-- `CommitGenesis` (core/genesis.go lines 464-496). Building the block via
`GenesisToBlock(g, db)` already flushes the allocation blob keyed by the
state root (`gaFlush`), before the height and clique checks run. -/
def commitGenesis (env : GenesisEnv) (g : Genesis) (db : DB) :
    Except CommitErr (GenHeader × Nat) × DB :=
  let hdr := genesisToHeader env g
  let hash := env.hashHeader hdr
  let db1 := dbAppend db [.stateSpec hdr.root g.alloc]
  if hdr.number ≠ 0 then (.error .nonZeroNumber, db1)
  else
    let config := g.config.getD env.allEthash
    if config.isClique && hdr.extra.isEmpty then (.error .cliqueNoSigners, db1)
    else (.ok (hdr, hash), dbAppend db1 (commitWrites hash g hdr config))

/-- Errors of `SetupGenesisBlockWithOverride`. -/
inductive SetupErr where
  | noConfig
  | mismatch (stored computed : Nat)
  | missingHead
  | compat (e : CompatErr)
  | commit (e : CommitErr)
deriving DecidableEq, Repr

/-- Outcome of `SetupGenesisBlockWithOverride`: the Go
`(ChainConfigurator, common.Hash, error)` triple plus the resulting
database; `crash` models the nil dereference on `header.Root` when the
stored genesis header cannot be read. -/
inductive SetupOut where
  | crash
  | out (cfg : Option Config) (hash : Nat) (err : Option SetupErr) (db : DB)

/-- `configOrDefault` (core/genesis.go lines 271-288). -/
def configOrDefault (env : GenesisEnv) (g : Option Genesis) (ghash : Nat) :
    Option Config :=
  match g with
  | some g => g.config
  | none => some ((env.presets ghash).getD env.allEthash)

/-- The tail of `SetupGenesisBlockWithOverride` (lines 162-221): effective
configuration, stored-config special case, head-based compatibility check,
conditional rewrite of the stored configuration. -/
def setupRest (env : GenesisEnv) (db : DB) (genesis : Option Genesis)
    (ov : Overrides) (stored : Nat) : SetupOut :=
  let newcfg := (configOrDefault env genesis stored).map (applyOv ov)
  match db.chainConfigOf stored with
  | none => .out newcfg stored none (dbAppend db [.chainConfigW stored newcfg])
  | some storedcfg =>
    if genesis.isNone && !(env.identical storedcfg newcfg) then
      .out (some (applyOv ov storedcfg)) stored none db
    else
      match db.headHeader with
      | none => .out newcfg stored (some .missingHead) db
      | some head =>
        let write :=
          if env.jsonEq storedcfg newcfg then db
          else dbAppend db [.chainConfigW stored newcfg]
        match env.compatible head.number head.time storedcfg newcfg with
        | some e =>
          if (head.number ≠ 0 ∧ e.rewindBlock ≠ 0) ∨ (head.time ≠ 0 ∧ e.rewindTime ≠ 0) then
            .out newcfg stored (some (.compat e)) db
          else .out newcfg stored none write
        | none => .out newcfg stored none write

/-- `SetupGenesisBlockWithOverride` after the empty-config guard (lines
117-221): commit fresh when nothing is stored; recommit (after a hash
check) when the genesis state is missing; otherwise check the supplied
spec's hash and reconcile configurations. -/
def setupMain (env : GenesisEnv) (db : DB) (genesis : Option Genesis)
    (ov : Overrides) : SetupOut :=
  let stored := db.canonicalHash0
  if stored = 0 then
    let g := genesis.getD env.defaultGenesis
    match commitGenesis env g db with
    | (.error e, db1) => .out g.config 0 (some (.commit e)) db1
    | (.ok (_, bhash), db1) => .out (g.config.map (applyOv ov)) bhash none db1
  else
    match db.readHeader0 stored with
    | none => .crash
    | some hdr =>
      if hdr.root ≠ emptyRootHash ∧ db.hasLegacyTrieNode hdr.root = false then
        let g := genesis.getD env.defaultGenesis
        let hash := env.hashHeader (genesisToHeader env g)
        if hash ≠ stored then .out g.config hash (some (.mismatch stored hash)) db
        else
          match commitGenesis env g db with
          | (.error e, db1) => .out g.config hash (some (.commit e)) db1
          | (.ok (_, bhash), db1) => .out (g.config.map (applyOv ov)) bhash none db1
      else
        match genesis with
        | some g =>
          let hash := env.hashHeader (genesisToHeader env g)
          if hash ≠ stored then .out g.config hash (some (.mismatch stored hash)) db
          else setupRest env db genesis ov stored
        | none => setupRest env db genesis ov stored

/-- `SetupGenesisBlockWithOverride` (core/genesis.go lines 92-222). -/
def setup (env : GenesisEnv) (db : DB) (genesis : Option Genesis)
    (ov : Overrides) : SetupOut :=
  match genesis with
  | some g =>
    if env.isEmptyCfg g.config then .out (some env.allEthash) 0 (some .noConfig) db
    else setupMain env db genesis ov
  | none => setupMain env db genesis ov

/-! ### Fork identifier wire codec (core/forkid)

The codec itself is not among the source files under verification (only its
test, core/forkid/forkid_test.go, is), so the encoder and decoder below are
modelled from the spec: the Fork Identifier is exchanged as two fields, a
4-byte checksum and a variable-length unsigned integer for `next`, under a
length-prefixed binary serialization (RLP) in which a zero-valued `next`
serializes as a single zero byte (`0x80`), not omitted. The test vectors of
`TestEncoding` pin the concrete bytes. -/

/-- Big-endian minimal byte decomposition of a natural number, by fuel:
`beBytesGo f n` is the digit list of `n` provided `n < 256 ^ f`. -/
def beBytesGo : Nat → Nat → List Nat
  | 0, _ => []
  | f + 1, n => if n = 0 then [] else beBytesGo f (n / 256) ++ [n % 256]

/-- Big-endian minimal byte decomposition of a 64-bit quantity (fuel 16
covers every value below `256 ^ 16`, far above the 64-bit range). -/
def beBytes (n : Nat) : List Nat := beBytesGo 16 n

/-- Recompose a big-endian byte list into a natural number. -/
def beVal (l : List Nat) : Nat := l.foldl (fun a b => 256 * a + b) 0

/-- RLP encoding of an unsigned integer: `0x80` for zero, the byte itself
below `0x80`, otherwise a `0x80 + len` prefix followed by the minimal
big-endian bytes. -/
def rlpUint (n : Nat) : List Nat :=
  if n = 0 then [0x80]
  else if n < 0x80 then [n]
  else (0x80 + (beBytes n).length) :: beBytes n

/-- Modelled from the spec: the wire serialization of a Fork Identifier
`(checksum, next)` — an RLP list of the 4-byte checksum string (prefix
`0x84`) and the RLP unsigned integer `next`. -/
def encodeID (cs next : Nat) : List Nat :=
  let nb := rlpUint next
  (0xc0 + (5 + nb.length)) :: 0x84 :: (cs / 2 ^ 24 % 256) :: (cs / 2 ^ 16 % 256) ::
    (cs / 2 ^ 8 % 256) :: (cs % 256) :: nb

/-- RLP decoding of an unsigned integer (64-bit range). -/
def decodeUintRLP (l : List Nat) : Option Nat :=
  match l with
  | [] => none
  | [b] => if b = 0x80 then some 0 else if b < 0x80 then some b else none
  | b :: rest =>
    if b = 0x80 + rest.length ∧ 0 < rest.length ∧ rest.length ≤ 8 then some (beVal rest)
    else none

/-- Modelled from the spec: decoding of a Fork Identifier wire payload,
inverse of `encodeID`. -/
def decodeID (l : List Nat) : Option (Nat × Nat) :=
  match l with
  | c :: t :: b1 :: b2 :: b3 :: b4 :: rest =>
    if c = 0xc0 + (5 + rest.length) ∧ t = 0x84 then
      match decodeUintRLP rest with
      | some nx => some (((b1 * 256 + b2) * 256 + b3) * 256 + b4, nx)
      | none => none
    else none
  | _ => none

/-! ### Concrete instances used to evaluate the model -/

/-- A shared parent header at height 0. -/
def hdrP : Header := ⟨100, 99, 0, 0⟩

/-- A locally canonical header at height 1, child of `hdrP`. -/
def hdrC : Header := ⟨1, 100, 1, 5⟩

/-- A competing header at height 1, child of `hdrP`. -/
def hdrX : Header := ⟨2, 100, 1, 5⟩

/-- A taller header whose parent is absent from the store. -/
def hdrTall : Header := ⟨30, 20, 2, 0⟩

/-- A shorter header. -/
def hdrShort : Header := ⟨11, 10, 1, 0⟩

/-- A chain view with equal total difficulties for `hdrC` and `hdrX`,
no terminal total difficulty, and artificial finality disabled. -/
def chainEq : ChainView where
  getHeader := fun h n => if h = 100 ∧ n = 0 then some hdrP else none
  getTd := fun h n => if n = 1 ∧ (h = 1 ∨ h = 2) then some 5 else none
  ttd := none
  ecbp1100Transition := none
  isBlockChain := true
  afEnabled := false

/-- A chain view where the external header has the strictly greater total
difficulty and the ECBP1100 transition is active from genesis. -/
def chainGt : ChainView where
  getHeader := fun h n => if h = 100 ∧ n = 0 then some hdrP else none
  getTd := fun h n =>
    if h = 1 ∧ n = 1 then some 10 else if h = 2 ∧ n = 1 then some 20 else none
  ttd := none
  ecbp1100Transition := some 0
  isBlockChain := false
  afEnabled := false

/-- `chainGt` with the deep-reorg gate not configured. -/
def chainGtSkip : ChainView :=
  { chainGt with ecbp1100Transition := none, isBlockChain := true }

/-- `chainGt` with a terminal total difficulty reached by the external
header, gate not configured. -/
def chainTtd : ChainView := { chainGt with ttd := some 15, ecbp1100Transition := none }

/-- `chainGt` with a reached terminal total difficulty and artificial
finality fully enabled. -/
def chainTtdAF : ChainView :=
  { chainGt with ttd := some 15, isBlockChain := true, afEnabled := true }

/-- A chain view resolving no headers and no total difficulties. -/
def chainNoTd : ChainView where
  getHeader := fun _ _ => none
  getTd := fun _ _ => none
  ttd := none
  ecbp1100Transition := none
  isBlockChain := false
  afEnabled := false

/-- A preserve predicate preferring every header. -/
def preserveAll : Option (Header → Bool) := some (fun _ => true)

/-- Fork choice whose tie-break predicate prefers both headers. -/
def fcBothPref : ForkChoice := ⟨chainEq, preserveAll⟩

/-- Fork choice with no tie-break predicate (neither header preferred). -/
def fcNoPref : ForkChoice := ⟨chainEq, none⟩

/-- Fork choice over `chainGt`. -/
def fcGt : ForkChoice := ⟨chainGt, none⟩

/-- Fork choice over `chainGtSkip`. -/
def fcGtSkip : ForkChoice := ⟨chainGtSkip, none⟩

/-- Fork choice over `chainTtd`. -/
def fcTtd : ForkChoice := ⟨chainTtd, none⟩

/-- Fork choice over `chainTtdAF`. -/
def fcTtdAF : ForkChoice := ⟨chainTtdAF, none⟩

/-- Fork choice over `chainNoTd`. -/
def fcNoTd : ForkChoice := ⟨chainNoTd, none⟩

/-- A deep-reorg gate that rejects every candidate reorg. -/
def gateFail : Gate := fun _ _ _ _ => some "reorg disallowed by policy"

/-- A deep-reorg gate that accepts every candidate reorg. -/
def gatePass : Gate := fun _ _ _ _ => none

/-- Chain `A` of the common-ancestor scenario: heights 0..2, sharing
heights 0 and 1 with `hB` and diverging above height 1. -/
def hA : Nat → Header
  | 0 => ⟨10, 9, 0, 0⟩
  | 1 => ⟨11, 10, 1, 0⟩
  | 2 => ⟨12, 11, 2, 0⟩
  | _ => ⟨0, 0, 0, 0⟩

/-- Chain `B` of the common-ancestor scenario: heights 0..3. -/
def hB : Nat → Header
  | 0 => ⟨10, 9, 0, 0⟩
  | 1 => ⟨11, 10, 1, 0⟩
  | 2 => ⟨22, 11, 2, 0⟩
  | 3 => ⟨23, 22, 3, 0⟩
  | _ => ⟨0, 0, 0, 0⟩

/-- The header store resolving both branches of the scenario. -/
def chainC5 : ChainView where
  getHeader := fun h n =>
    if h = 10 ∧ n = 0 then some (hA 0)
    else if h = 11 ∧ n = 1 then some (hA 1)
    else if h = 22 ∧ n = 2 then some (hB 2)
    else none
  getTd := fun _ _ => none
  ttd := none
  ecbp1100Transition := none
  isBlockChain := false
  afEnabled := false

/-- An ethash (non-clique) configuration with no transitions set. -/
def cfgE : Config := ⟨false, none, none, none, none, none, none, none, none⟩

/-- A clique configuration with no transitions set. -/
def cfgC : Config := ⟨true, none, none, none, none, none, none, none, none⟩

/-- A well-formed height-zero genesis specification. -/
def gW : Genesis :=
  { config := some cfgE, alloc := [], nonce := 0, timestamp := 0, extraData := [],
    gasLimit := 5000, gasUsed := 0, difficulty := some 17, mixhash := 0, coinbase := 0,
    baseFee := none, number := 0, parentHash := 0, excessBlobGas := none,
    blobGasUsed := none }

/-- A concrete instantiation of the opaque genesis collaborators. -/
def envW : GenesisEnv :=
  { deriveRoot := fun _ => 9
    hashHeader := fun _ => 5
    allEthash := cfgE
    defaultGenesis := gW
    presets := fun _ => none
    isEmptyCfg := fun c => c.isNone
    identical := fun _ _ => true
    compatible := fun _ _ _ _ => none
    jsonEq := fun _ _ => true }

/-- A database that already stores a genesis with hash 7. -/
def dbW : DB :=
  { canonicalHash0 := 7
    readHeader0 := fun h => if h = 7 then some (genesisToHeader envW gW) else none
    hasLegacyTrieNode := fun _ => false
    chainConfigOf := fun _ => none
    headHeader := none
    writes := [] }

/-- An empty database. -/
def dbEmpty : DB :=
  { canonicalHash0 := 0
    readHeader0 := fun _ => none
    hasLegacyTrieNode := fun _ => false
    chainConfigOf := fun _ => none
    headHeader := none
    writes := [] }

/-- No chain overrides. -/
def ovNone : Overrides := ⟨none, none, none⟩

/-! ### Theorems -/

/-- `ReorgNeeded` reduces to its core once both total difficulties resolve. -/
theorem reorgNeeded_eq_core (f : ForkChoice) (gate : Gate) (coin : Bool) (fuel : Nat)
    (cur xh : Header) (l e : Int)
    (hl : f.chain.getTd cur.hash cur.number = some l)
    (he : f.chain.getTd xh.hash xh.number = some e) :
    reorgNeeded f gate coin fuel cur xh = reorgCore f gate coin fuel cur xh l e := by
  unfold reorgNeeded
  rw [hl, he]

/-- `reorgCore` never produces the missing-total-difficulty error. -/
theorem reorgCore_no_missing (f : ForkChoice) (gate : Gate) (coin : Bool) (fuel : Nat)
    (cur xh : Header) (l e : Int) (b : Bool) :
    reorgCore f gate coin fuel cur xh l e ≠ .ret b (some .missingTd) := by
  unfold reorgCore
  intro h
  repeat' split at h
  all_goals try simp_all
  all_goals repeat' split at h
  all_goals simp_all

/-- Claim C3 (confirmed): whenever both total difficulties resolve, the
chain configuration's terminal total difficulty is set, and the external
header's total difficulty is at or beyond it, `ReorgNeeded` returns
`(true, nil)` — regardless of the local difficulty, the heights, the
tie-break predicate, the random draw, and the deep-reorg gate. -/
theorem c3_ttd_always_reorg (f : ForkChoice) (gate : Gate) (coin : Bool) (fuel : Nat)
    (cur xh : Header) (l e t : Int)
    (hl : f.chain.getTd cur.hash cur.number = some l)
    (he : f.chain.getTd xh.hash xh.number = some e)
    (httd : f.chain.ttd = some t) (hle : t ≤ e) :
    reorgNeeded f gate coin fuel cur xh = .ret true none := by
  rw [reorgNeeded_eq_core f gate coin fuel cur xh l e hl he]
  unfold reorgCore
  rw [httd]
  simp [ttdReached, hle]

/-- Witness for C3: a concrete chain where the terminal total difficulty
15 is at or below the external total difficulty 20. -/
theorem c3_ttd_always_reorg_witness :
    reorgNeeded fcTtd gateFail true 5 hdrC hdrX = .ret true none :=
  c3_ttd_always_reorg fcTtd gateFail true 5 hdrC hdrX 10 20 15 (by decide) (by decide)
    rfl (by decide)

/-- Claim C10 (confirmed): when the terminal-total-difficulty rule
triggers, `ReorgNeeded` returns `(true, nil)` for every deep-reorg gate
whatsoever — so the gate (and the common-ancestor walk feeding it) is never
consulted — even when artificial finality is enabled and the ECBP1100
activation height has been reached. -/
theorem c10_ttd_skips_gate (f : ForkChoice) (coin : Bool) (fuel : Nat)
    (cur xh : Header) (l e t : Int)
    (hl : f.chain.getTd cur.hash cur.number = some l)
    (he : f.chain.getTd xh.hash xh.number = some e)
    (httd : f.chain.ttd = some t) (hle : t ≤ e)
    (haf : f.chain.afEnabled = true)
    (hecbp : isForkEnabled f.chain.ecbp1100Transition cur.number = true) :
    ∀ gate : Gate, reorgNeeded f gate coin fuel cur xh = .ret true none := by
  intro gate
  rw [reorgNeeded_eq_core f gate coin fuel cur xh l e hl he]
  unfold reorgCore
  rw [httd]
  simp [ttdReached, hle]

/-- Witness for C10: artificial finality fully enabled, a gate that rejects
everything, yet the decision is `(true, nil)`. -/
theorem c10_ttd_skips_gate_witness :
    reorgNeeded fcTtdAF gateFail false 5 hdrC hdrX = .ret true none :=
  c10_ttd_skips_gate fcTtdAF false 5 hdrC hdrX 10 20 15 (by decide) (by decide) rfl
    (by decide) rfl (by decide) gateFail

/-- Claim C6 (confirmed): `ReorgNeeded` fails with the missing-td error if
and only if the total difficulty of the current or the external header
cannot be resolved, and in that case the check precedes every comparison:
the returned decision is the zero value `false` alongside the error. -/
theorem c6_missing_td (f : ForkChoice) (gate : Gate) (coin : Bool) (fuel : Nat)
    (cur xh : Header) :
    ((f.chain.getTd cur.hash cur.number = none ∨ f.chain.getTd xh.hash xh.number = none) →
      reorgNeeded f gate coin fuel cur xh = .ret false (some .missingTd)) ∧
    (∀ b : Bool, reorgNeeded f gate coin fuel cur xh = .ret b (some .missingTd) →
      f.chain.getTd cur.hash cur.number = none ∨ f.chain.getTd xh.hash xh.number = none) := by
  constructor
  · rintro (h | h)
    · cases h2 : f.chain.getTd xh.hash xh.number <;> simp [reorgNeeded, h, h2]
    · cases h1 : f.chain.getTd cur.hash cur.number <;> simp [reorgNeeded, h, h1]
  · intro b hb
    by_contra hno
    push_neg at hno
    obtain ⟨h1, h2⟩ := hno
    cases hc : f.chain.getTd cur.hash cur.number with
    | none => exact h1 hc
    | some l =>
      cases hx : f.chain.getTd xh.hash xh.number with
      | none => exact h2 hx
      | some e =>
        rw [reorgNeeded_eq_core f gate coin fuel cur xh l e hc hx] at hb
        exact reorgCore_no_missing f gate coin fuel cur xh l e b hb

/-- Witness for C6: with no resolvable total difficulties the decision is
`(false, missing td)`. -/
theorem c6_missing_td_witness :
    reorgNeeded fcNoTd gateFail true 3 hdrC hdrX = .ret false (some .missingTd) :=
  (c6_missing_td fcNoTd gateFail true 3 hdrC hdrX).1 (Or.inl rfl)

/-- Counterexample to claim C1 as stated: equal resolvable total
difficulties (both 5), equal heights, no terminal total difficulty, and the
tie-break predicate prefers BOTH headers. The claim says that when both
headers are preferred the decision is the 50% random draw — here the draw
is `true` — yet `ReorgNeeded` deterministically returns `(false, nil)`:
`reorg = !currentPreserve && (externPreserve || coin)` is false whenever
the current header is preferred, regardless of the draw. -/
theorem c1_both_preferred_cex :
    preservedPair fcBothPref hdrC hdrX = (true, true) ∧
    fcBothPref.chain.getTd hdrC.hash hdrC.number = some 5 ∧
    fcBothPref.chain.getTd hdrX.hash hdrX.number = some 5 ∧
    hdrX.number = hdrC.number ∧
    fcBothPref.chain.ttd = none ∧
    reorgNeeded fcBothPref gateFail true 10 hdrC hdrX = .ret false none :=
  ⟨rfl, by decide, by decide, rfl, rfl, by decide⟩

/-- Claim C1 (amended): with equal resolvable total difficulties, equal
heights, the terminal-total-difficulty rule not triggered and the
deep-reorg gate not consulted, `ReorgNeeded` returns
`(!currentPreserve && (externPreserve || coin), nil)`: no reorg whenever
the current header is preferred (even if the external one also is);
a deterministic reorg when only the external header is preferred; and the
50% draw `coin` exactly when neither is preferred. -/
theorem c1_tie_break (f : ForkChoice) (gate : Gate) (coin : Bool) (fuel : Nat)
    (cur xh : Header) (l e : Int)
    (hl : f.chain.getTd cur.hash cur.number = some l)
    (he : f.chain.getTd xh.hash xh.number = some e)
    (heq : e = l)
    (httd : ttdReached f.chain.ttd e = false)
    (hn : xh.number = cur.number)
    (haf : afSkipped f cur) :
    reorgNeeded f gate coin fuel cur xh =
      .ret (!(preservedPair f cur xh).1 && ((preservedPair f cur xh).2 || coin)) none := by
  rw [reorgNeeded_eq_core f gate coin fuel cur xh l e hl he]
  subst heq
  unfold reorgCore
  rw [httd]
  simp only [Bool.false_eq_true, if_false, if_pos rfl]
  rw [hn]
  simp only [lt_irrefl, if_false, if_pos rfl]
  cases hr : (!(preservedPair f cur xh).1 && ((preservedPair f cur xh).2 || coin)) with
  | false => simp [hr]
  | true =>
    simp only [hr, if_true]
    rcases haf with ⟨h1, h2⟩ | h2
    · rw [h1, h2]
      simp
    · cases hbc : (f.chain.isBlockChain && !f.chain.afEnabled) with
      | true => simp
      | false => simp [h2]

/-- Witness for the amended C1: no tie-break predicate installed (neither
header preferred), draw `true`, so the decision is `(true, nil)`. -/
theorem c1_tie_break_witness :
    reorgNeeded fcNoPref gateFail true 10 hdrC hdrX = .ret true none :=
  c1_tie_break fcNoPref gateFail true 10 hdrC hdrX 5 5 (by decide) (by decide) rfl rfl
    rfl (Or.inl ⟨rfl, rfl⟩)

/-- Counterexample to claim C2 as stated: both total difficulties resolve,
the external total difficulty 20 strictly exceeds the local 10, yet
`ReorgNeeded` returns `(false, nil)`, because artificial finality is
consultable (ECBP1100 active at the current height) and the deep-reorg gate
rejects the candidate reorg. -/
theorem c2_af_suppresses_cex :
    fcGt.chain.getTd hdrC.hash hdrC.number = some 10 ∧
    fcGt.chain.getTd hdrX.hash hdrX.number = some 20 ∧
    ((10 : Int) < 20) ∧
    reorgNeeded fcGt gateFail true 10 hdrC hdrX = .ret false none :=
  ⟨by decide, by decide, by decide, by decide⟩

/-- Claim C2 (amended): with both total difficulties resolving and the
external one strictly greater, `ReorgNeeded` returns `(true, nil)`
provided the deep-reorg gate is not consulted; and in all cases the
decision involves no randomness — it is independent of the tie-break
draw. -/
theorem c2_higher_td (f : ForkChoice) (gate : Gate) (coin : Bool) (fuel : Nat)
    (cur xh : Header) (l e : Int)
    (hl : f.chain.getTd cur.hash cur.number = some l)
    (he : f.chain.getTd xh.hash xh.number = some e)
    (hlt : l < e) :
    (afSkipped f cur → reorgNeeded f gate coin fuel cur xh = .ret true none) ∧
    (∀ c2 : Bool, reorgNeeded f gate c2 fuel cur xh = reorgNeeded f gate coin fuel cur xh) := by
  have hne : ¬(e = l) := by omega
  have hd : decide (l < e) = true := by simpa using hlt
  constructor
  · intro haf
    rw [reorgNeeded_eq_core f gate coin fuel cur xh l e hl he]
    unfold reorgCore
    cases httd : ttdReached f.chain.ttd e with
    | true => simp
    | false =>
      simp only [Bool.false_eq_true, if_false]
      simp only [hne, ite_false, hd, ite_true]
      rcases haf with ⟨h1, h2⟩ | h2
      · rw [h1, h2]
        simp
      · cases hbc : (f.chain.isBlockChain && !f.chain.afEnabled) with
        | true => simp [hbc]
        | false => simp [hbc, h2]
  · intro c2
    rw [reorgNeeded_eq_core f gate c2 fuel cur xh l e hl he,
      reorgNeeded_eq_core f gate coin fuel cur xh l e hl he]
    unfold reorgCore
    simp only [hne, ite_false]

/-- Witness for the amended C2: gate not consultable, external total
difficulty 20 over local 10, the decision is `(true, nil)` and does not
change with the draw. -/
theorem c2_higher_td_witness :
    reorgNeeded fcGtSkip gateFail true 10 hdrC hdrX = .ret true none ∧
    reorgNeeded fcGtSkip gateFail false 10 hdrC hdrX =
      reorgNeeded fcGtSkip gateFail true 10 hdrC hdrX :=
  ⟨(c2_higher_td fcGtSkip gateFail true 10 hdrC hdrX 10 20 (by decide) (by decide)
      (by decide)).1 (Or.inl ⟨rfl, rfl⟩),
   (c2_higher_td fcGtSkip gateFail true 10 hdrC hdrX 10 20 (by decide) (by decide)
      (by decide)).2 false⟩

/-- Claim C4 (the code contradicts it): when the height-equalization walk
of `CommonAncestor` hits a missing parent, the walked cursor becomes nil
and the subsequent `.ParentHash` access dereferences a nil header — a Go
runtime panic, modelled as `crash` — instead of the `BrokenChain` error the
spec mandates. Here the store lacks the parent of the taller header. -/
theorem c4_equalize_missing_parent_crashes :
    chainNoTd.getHeader hdrTall.parentHash (hdrTall.number - 1) = none ∧
    commonAncestor chainNoTd 10 hdrTall hdrShort = .crash :=
  ⟨rfl, by decide⟩

/-- The height-equalization walk follows a well-linked chain `C` from
height `j` down to height `tgt`. -/
theorem walkTo_reaches (chain : ChainView) (C : Nat → Header) (cap : Nat)
    (hnum : ∀ i, i ≤ cap → (C i).number = i)
    (hlink : ∀ i, i < cap → chain.getHeader (C (i + 1)).parentHash i = some (C i)) :
    ∀ fuel j tgt, tgt ≤ j → j ≤ cap → j - tgt < fuel →
      walkTo chain fuel (C j) tgt = some (some (C tgt)) := by
  intro fuel
  induction fuel with
  | zero => intro j tgt _ _ h; omega
  | succ fuel ih =>
    intro j tgt hjt hjc hfuel
    by_cases hj : j = tgt
    · subst hj
      simp [walkTo, hnum j hjc]
    · have hj1 : 1 ≤ j := by omega
      have hgp : goPred j = j - 1 := by unfold goPred; rw [if_neg (by omega)]
      have hlk := hlink (j - 1) (by omega)
      rw [show j - 1 + 1 = j by omega] at hlk
      simp only [walkTo, hnum j hjc, if_neg hj, hgp, hlk]
      exact ih (j - 1) tgt (by omega) (by omega) (by omega)

/-- The lockstep loop, entered at equal height `j` on two chains that agree
up to height `h` and have distinct hashes above it, stops exactly at the
shared header of height `h`. -/
theorem lockstep_finds (chain : ChainView) (A B : Nat → Header) (m k h : Nat)
    (hAnum : ∀ i, i ≤ m → (A i).number = i)
    (hBnum : ∀ i, i ≤ k → (B i).number = i)
    (hAlink : ∀ i, i < m → chain.getHeader (A (i + 1)).parentHash i = some (A i))
    (hBlink : ∀ i, i < k → chain.getHeader (B (i + 1)).parentHash i = some (B i))
    (hshare : ∀ i, i ≤ h → A i = B i)
    (hdiff : ∀ i, h < i → i ≤ m → i ≤ k → (A i).hash ≠ (B i).hash) :
    ∀ fuel j, h ≤ j → j ≤ m → j ≤ k → j - h < fuel →
      lockstep chain fuel (some (A j)) (some (B j)) = .ok (A h) := by
  intro fuel
  induction fuel with
  | zero => intro j _ _ _ hf; omega
  | succ fuel ih =>
    intro j hhj hjm hjk hf
    by_cases hj : j = h
    · subst hj
      have hsh : A j = B j := hshare j le_rfl
      simp [lockstep, goHash, ← hsh]
    · have hlt : h < j := by omega
      have hne := hdiff j hlt hjm hjk
      have hj1 : 1 ≤ j := by omega
      have hgpA : goPred (A j).number = j - 1 := by
        rw [hAnum j hjm]; unfold goPred; rw [if_neg (by omega)]
      have hgpB : goPred (B j).number = j - 1 := by
        rw [hBnum j hjk]; unfold goPred; rw [if_neg (by omega)]
      have hlkA := hAlink (j - 1) (by omega)
      rw [show j - 1 + 1 = j by omega] at hlkA
      have hlkB := hBlink (j - 1) (by omega)
      rw [show j - 1 + 1 = j by omega] at hlkB
      simp only [lockstep, goHash, if_neg hne, hgpA, hlkA, hgpB, hlkB]
      exact ih (j - 1) (by omega) (by omega) (by omega) (by omega)

/-- Claim C5 (confirmed): on two header chains that diverge at height `h`
— they share the header at the divergence point `h` and every header below
it, and their headers above `h` are pairwise distinct — with every parent
lookup succeeding, `CommonAncestor` returns the shared header at height
`h`. `m` and `k` are the tip heights of the two branches and the fuel
bound exceeds the total walk length. -/
theorem c5_divergence_point (chain : ChainView) (A B : Nat → Header)
    (m k h fuel : Nat) (hm : h ≤ m) (hk : h ≤ k)
    (hAnum : ∀ i, i ≤ m → (A i).number = i)
    (hBnum : ∀ i, i ≤ k → (B i).number = i)
    (hAlink : ∀ i, i < m → chain.getHeader (A (i + 1)).parentHash i = some (A i))
    (hBlink : ∀ i, i < k → chain.getHeader (B (i + 1)).parentHash i = some (B i))
    (hshare : ∀ i, i ≤ h → A i = B i)
    (hdiff : ∀ i, h < i → i ≤ m → i ≤ k → (A i).hash ≠ (B i).hash)
    (hfuel : m + k + 1 ≤ fuel) :
    commonAncestor chain fuel (A m) (B k) = .ok (A h) := by
  unfold commonAncestor
  rw [hAnum m le_rfl, hBnum k le_rfl]
  by_cases hmk : m > k
  · rw [if_pos hmk,
      walkTo_reaches chain A m hAnum hAlink fuel m k (by omega) le_rfl (by omega)]
    exact lockstep_finds chain A B m k h hAnum hBnum hAlink hBlink hshare hdiff fuel k
      hk (by omega) le_rfl (by omega)
  · rw [if_neg hmk,
      walkTo_reaches chain B k hBnum hBlink fuel k m (by omega) le_rfl (by omega)]
    exact lockstep_finds chain A B m k h hAnum hBnum hAlink hBlink hshare hdiff fuel m
      hm le_rfl (by omega) (by omega)

/-- Witness for C5: branches of heights 2 and 3 diverging at height 1; the
walk returns the shared height-1 header. -/
theorem c5_divergence_point_witness :
    commonAncestor chainC5 6 (hA 2) (hB 3) = .ok (hA 1) :=
  c5_divergence_point chainC5 hA hB 2 3 1 6 (by decide) (by decide) (by decide)
    (by decide) (by decide) (by decide) (by decide)
    (by intro i h1 h2 h3; interval_cases i <;> decide) (by decide)

/-- Claim C7 (confirmed): whenever a genesis hash is already stored and the
supplied specification's derived block hash differs from it, `Setup` fails
with the genesis-mismatch error carrying the stored and the computed hash,
and the database is returned unchanged — no write is performed. The
conclusion holds both when the genesis state is missing (recommit branch)
and when it is present, since it does not depend on the stored header's
root or on the trie-node check. -/
theorem c7_genesis_mismatch (env : GenesisEnv) (db : DB) (g : Genesis) (ov : Overrides)
    (hdr : GenHeader)
    (hne : env.isEmptyCfg g.config = false)
    (hst : db.canonicalHash0 ≠ 0)
    (hhd : db.readHeader0 db.canonicalHash0 = some hdr)
    (hmm : env.hashHeader (genesisToHeader env g) ≠ db.canonicalHash0) :
    setup env db (some g) ov =
      .out g.config (env.hashHeader (genesisToHeader env g))
        (some (.mismatch db.canonicalHash0 (env.hashHeader (genesisToHeader env g)))) db := by
  unfold setup
  simp only [hne, Bool.false_eq_true, if_false]
  unfold setupMain
  rw [if_neg hst]
  simp only [hhd, Option.getD_some]
  by_cases hroot : hdr.root ≠ emptyRootHash ∧ db.hasLegacyTrieNode hdr.root = false
  · rw [if_pos hroot, if_pos hmm]
  · rw [if_neg hroot, if_pos hmm]

/-- Witness for C7: a stored genesis hash 7, a spec hashing to 5; `Setup`
returns the mismatch error with both hashes and leaves the database
untouched. -/
theorem c7_genesis_mismatch_witness :
    setup envW dbW (some gW) ovNone =
      .out gW.config 5 (some (.mismatch 7 5)) dbW :=
  c7_genesis_mismatch envW dbW gW ovNone (genesisToHeader envW gW) rfl (by decide) rfl
    (by decide)

/-- Claim C8 (confirmed): `CommitGenesis` fails with the
non-zero-genesis-block error when the built block's height is not zero;
fails with the missing-signers error when the consensus engine is clique
and the built block's extra-data is empty; and on success appends exactly
the allocation blob (keyed by state root by the build step, then by block
hash), the total difficulty, the block, the empty receipt set, the four
canonical-pointer records and the chain configuration keyed by the genesis
hash, in the order of the source. -/
theorem c8_commit (env : GenesisEnv) (g : Genesis) (db : DB) :
    ((genesisToHeader env g).number ≠ 0 →
      (commitGenesis env g db).1 = .error .nonZeroNumber) ∧
    ((genesisToHeader env g).number = 0 →
      (g.config.getD env.allEthash).isClique = true →
      (genesisToHeader env g).extra = [] →
      (commitGenesis env g db).1 = .error .cliqueNoSigners) ∧
    ((genesisToHeader env g).number = 0 →
      ((g.config.getD env.allEthash).isClique = true → (genesisToHeader env g).extra ≠ []) →
      (commitGenesis env g db).1 =
        .ok (genesisToHeader env g, env.hashHeader (genesisToHeader env g)) ∧
      (commitGenesis env g db).2.writes =
        db.writes ++
          ([WriteOp.stateSpec (genesisToHeader env g).root g.alloc] ++
            commitWrites (env.hashHeader (genesisToHeader env g)) g (genesisToHeader env g)
              (g.config.getD env.allEthash))) := by
  refine ⟨?_, ?_, ?_⟩
  · intro h0
    unfold commitGenesis
    rw [if_pos h0]
  · intro h0 hclq hext
    unfold commitGenesis
    rw [if_neg (by simp [h0])]
    rw [if_pos (by simp [hclq, hext])]
  · intro h0 hnc
    unfold commitGenesis
    rw [if_neg (by simp [h0])]
    have hcond : ¬((g.config.getD env.allEthash).isClique
        && (genesisToHeader env g).extra.isEmpty) = true := by
      cases hc : (g.config.getD env.allEthash).isClique with
      | false => simp
      | true =>
        simp only [Bool.true_and]
        have := hnc hc
        simpa [List.isEmpty_iff] using this
    rw [if_neg hcond]
    exact ⟨rfl, by simp [dbAppend, List.append_assoc]⟩

/-- Witness for C8: a non-clique, height-zero specification committed into
an empty database performs exactly the expected write sequence. -/
theorem c8_commit_witness :
    (commitGenesis envW gW dbEmpty).1 =
      .ok (genesisToHeader envW gW, envW.hashHeader (genesisToHeader envW gW)) ∧
    (commitGenesis envW gW dbEmpty).2.writes =
      dbEmpty.writes ++
        ([WriteOp.stateSpec (genesisToHeader envW gW).root gW.alloc] ++
          commitWrites (envW.hashHeader (genesisToHeader envW gW)) gW
            (genesisToHeader envW gW) (gW.config.getD envW.allEthash)) :=
  (c8_commit envW gW dbEmpty).2.2 rfl (by decide)

/-- Appending one byte to a big-endian list shifts the value by one base. -/
theorem beVal_append (l : List Nat) (x : Nat) : beVal (l ++ [x]) = 256 * beVal l + x := by
  simp [beVal, List.foldl_append]

/-- `beBytesGo` decomposes faithfully: recomposing returns the input
whenever the fuel covers the input's magnitude. -/
theorem beVal_beBytesGo : ∀ f n, n < 256 ^ f → beVal (beBytesGo f n) = n := by
  intro f
  induction f with
  | zero =>
    intro n h
    have h0 : n = 0 := by simpa using h
    subst h0
    rfl
  | succ f ih =>
    intro n h
    unfold beBytesGo
    by_cases hn : n = 0
    · subst hn
      rfl
    · rw [if_neg hn, beVal_append]
      have h2 : n < 256 * 256 ^ f := by
        rw [pow_succ] at h
        omega
      rw [ih (n / 256) (Nat.div_lt_of_lt_mul h2)]
      omega

/-- The digit list produced by `beBytesGo` has at most `k` digits when the
input is below `256 ^ k` and the fuel is at least `k`. -/
theorem beBytesGo_len : ∀ f k n, k ≤ f → n < 256 ^ k → (beBytesGo f n).length ≤ k := by
  intro f
  induction f with
  | zero => intro k n _ _; simp [beBytesGo]
  | succ f ih =>
    intro k n hk h
    unfold beBytesGo
    by_cases hn : n = 0
    · simp [hn]
    · rw [if_neg hn]
      have hk1 : 1 ≤ k := by
        by_contra hc
        have hk0 : k = 0 := by omega
        subst hk0
        simp at h
        omega
      have h2 : n / 256 < 256 ^ (k - 1) := by
        apply Nat.div_lt_of_lt_mul
        have : 256 ^ k = 256 * 256 ^ (k - 1) := by
          rw [← pow_succ']
          congr 1
          omega
        omega
      have := ih (k - 1) (n / 256) (by omega) h2
      rw [List.length_append]
      simp only [List.length_singleton]
      omega

/-- `beBytesGo` of a nonzero input is nonempty (given nonzero fuel). -/
theorem beBytesGo_ne_nil (f n : Nat) (hf : 0 < f) (hn : n ≠ 0) : beBytesGo f n ≠ [] := by
  cases f with
  | zero => omega
  | succ f =>
    unfold beBytesGo
    rw [if_neg hn]
    simp

/-- Decoding inverts the RLP unsigned-integer encoding on the 64-bit range. -/
theorem decodeUintRLP_rlpUint (n : Nat) (hn : n < 2 ^ 64) :
    decodeUintRLP (rlpUint n) = some n := by
  unfold rlpUint
  by_cases h0 : n = 0
  · subst h0
    decide
  · rw [if_neg h0]
    by_cases h1 : n < 0x80
    · rw [if_pos h1]
      simp only [decodeUintRLP]
      rw [if_neg (by omega), if_pos h1]
    · rw [if_neg h1]
      obtain ⟨d, ds, hds⟩ : ∃ d ds, beBytes n = d :: ds := by
        cases hbb : beBytes n with
        | nil => exact absurd hbb (beBytesGo_ne_nil 16 n (by omega) h0)
        | cons d ds => exact ⟨d, ds, rfl⟩
      unfold beBytes at hds
      unfold beBytes
      rw [hds]
      simp only [decodeUintRLP]
      have hlen : (d :: ds).length ≤ 8 := by
        rw [← hds]
        exact beBytesGo_len 16 8 n (by omega) (by norm_num at hn ⊢; omega)
      have hlen7 : ds.length ≤ 7 := by simpa using hlen
      rw [if_pos (by simp [hlen7])]
      rw [← hds, beVal_beBytesGo 16 n (by norm_num at hn ⊢; omega)]

/-- Claim C9 (confirmed; the codec is modelled from the spec since only its
test is among the sources): encoding a Fork Identifier and decoding the
result reproduces it exactly for every identifier (32-bit checksum, 64-bit
`next`); and the two pinned vectors of `TestEncoding` hold:
`(0, 0)` encodes to `c6 84 00 00 00 00 80` and
`(0xdeadbeef, 0xBADDCAFE)` to `ca 84 de ad be ef 84 ba dd ca fe`. -/
theorem c9_rlp :
    (∀ cs next, cs < 2 ^ 32 → next < 2 ^ 64 →
      decodeID (encodeID cs next) = some (cs, next)) ∧
    encodeID 0 0 = [0xc6, 0x84, 0x00, 0x00, 0x00, 0x00, 0x80] ∧
    encodeID 0xdeadbeef 0xBADDCAFE =
      [0xca, 0x84, 0xde, 0xad, 0xbe, 0xef, 0x84, 0xba, 0xdd, 0xca, 0xfe] := by
  refine ⟨?_, by decide, by decide⟩
  intro cs next hcs hnext
  unfold encodeID decodeID
  simp only []
  rw [if_pos (by simp), decodeUintRLP_rlpUint next hnext]
  simp only [Option.some.injEq, Prod.mk.injEq]
  refine ⟨by omega, by simp⟩

/-- Witness for C9: the round trip evaluated at the second test vector. -/
theorem c9_rlp_witness :
    decodeID (encodeID 0xdeadbeef 0xBADDCAFE) = some (0xdeadbeef, 0xBADDCAFE) :=
  c9_rlp.1 0xdeadbeef 0xBADDCAFE (by decide) (by decide)

end CoreGeth
